import Mathlib

/-!
Shallow embedding of the batch costing calculation engine and the field
name resolution subsystem of `src/app.py` (grape packing calculator).

Python floats are modelled as exact rationals (`ℚ`); Python's `round`
(round-half-to-even at a given number of decimal digits) is `pyRound`;
optional / fallible values are `Option`; the `graph_patch_item_fields`
network call is modelled as a request trace so that the write-back
behaviour of `patch_fields_safe_by_guess` is observable.
-/

/-- Round-half-to-even to an integer, the tie-breaking rule of Python's
built-in `round`. -/
def rndHalfEven (x : ℚ) : ℤ :=
  let f := ⌊x⌋
  let frac := x - (f : ℚ)
  if frac < 1/2 then f
  else if 1/2 < frac then f + 1
  else if f % 2 = 0 then f else f + 1

/-- Python `round(x, p)` on exact rationals. -/
def pyRound (x : ℚ) (p : ℕ) : ℚ :=
  (rndHalfEven (x * 10 ^ p) : ℚ) / 10 ^ p

/-- Characters stripped by Python's `str.strip()` (ASCII whitespace). -/
def isStripChar (c : Char) : Bool :=
  c = ' ' ∨ c = '\t' ∨ c = '\n' ∨ c = '\r' ∨ c = '\x0b' ∨ c = '\x0c'

/-- `str.strip()` on the character list of a string. -/
def stripChars (l : List Char) : List Char :=
  ((l.dropWhile isStripChar).reverse.dropWhile isStripChar).reverse

/-- Embeds `normalize_unit` (src/app.py:374):
`(u or "").strip().lower().replace(".", "")`. -/
def normalize_unit (u : String) : String :=
  String.mk (((stripChars u.data).map Char.toLower).filter (· ≠ '.'))

/-- Embeds `convert_to_kg` (src/app.py:379).  The pack branch mirrors
`if unit_weight_kg and unit_weight_kg > 0`, which for rationals is
`0 < unit_weight_kg`. -/
def convert_to_kg (qty : ℚ) (unit : String) (unit_weight_kg : ℚ) : ℚ :=
  let u := normalize_unit unit
  if u ∈ (["kg", "kgs", "kilogram", "kilograms"] : List String) then qty
  else if u ∈ (["box", "boxes", "carton", "cartons", "crate", "crates",
                "ctn", "ctns"] : List String) then qty * unit_weight_kg
  else if u ∈ (["loose", "loosekg", "bulk"] : List String) then qty
  else if u ∈ (["pack", "packs", "pkt", "pkts"] : List String) then
    (if 0 < unit_weight_kg then qty * unit_weight_kg else qty)
  else qty

/-- All unit labels recognised by some branch of `convert_to_kg`. -/
def recognizedUnits : List String :=
  ["kg", "kgs", "kilogram", "kilograms",
   "box", "boxes", "carton", "cartons", "crate", "crates", "ctn", "ctns",
   "loose", "loosekg", "bulk",
   "pack", "packs", "pkt", "pkts"]

/-- A successfully parsed timestamp (`_parse_dt` result): wall-clock
seconds plus an optional UTC-offset in seconds (`none` = naive). -/
structure ParsedDT where
  secs : ℚ
  tz : Option ℤ
  deriving DecidableEq, Repr

/-- Absolute time of a parsed timestamp once naive values have been
assigned UTC (`replace(tzinfo=timezone.utc)` leaves the clock reading
as the absolute time). -/
def absSecs (d : ParsedDT) : ℚ :=
  match d.tz with
  | none => d.secs
  | some o => d.secs - (o : ℚ)

/-- The timestamp adjustment of the labour loop body (src/app.py:432-438):
assign UTC to naive start/end, then add 24 hours to the end when it is
earlier than the start. -/
def shiftAdjust (s e : ParsedDT) : ParsedDT × ParsedDT :=
  let s' := if s.tz.isNone then ⟨s.secs, some 0⟩ else s
  let e' := if e.tz.isNone then ⟨e.secs, some 0⟩ else e
  let e'' := if absSecs e' < absSecs s' then ⟨e'.secs + 86400, e'.tz⟩ else e'
  (s', e'')

/-- Duration in minutes of one labour line (src/app.py:430-442): `0` when
either timestamp is missing, otherwise the adjusted span clamped to be
non-negative. -/
def durationMinutes (st fin : Option ParsedDT) : ℚ :=
  match st, fin with
  | some s, some e =>
    let p := shiftAdjust s e
    let d := (absSecs p.2 - absSecs p.1) / 60
    if d < 0 then 0 else d
  | _, _ => 0

/-- One labour line as consumed by `calc_for_batch`: parsed start/end
timestamps (`none` when absent or unparsable), headcount (`people`),
role text and the item identifier.  `finish` embeds the source's
`end_dt` (`end` is reserved in Lean). -/
structure LabourLine where
  start : Option ParsedDT
  finish : Option ParsedDT
  people : ℚ
  role : String
  itemId : String
  deriving DecidableEq, Repr

/-- Unrounded person-minutes of one line: `man_minutes = duration_minutes
* people` (src/app.py:444). -/
def lineManMinutes (l : LabourLine) : ℚ :=
  durationMinutes l.start l.finish * l.people

/-- Output row for one labour line (the dict appended to `labour_rows`,
src/app.py:447-455): adjusted timestamps, headcount, duration and
person-minutes rounded to 2 decimal places, and the role text. -/
structure LabourRow where
  itemId : String
  startOut : Option ParsedDT
  finishOut : Option ParsedDT
  people : ℚ
  durationMinutes : ℚ
  manMinutes : ℚ
  role : String
  deriving DecidableEq, Repr

/-- Builds the output row of one labour line, mirroring the loop body of
`calc_for_batch` (src/app.py:424-455).  The serialized timestamps are the
locally adjusted `start_dt` / `end_dt` (UTC-assigned, possibly shifted by
24 hours); rounding to 2 decimals happens only in the row. -/
def processLine (l : LabourLine) : LabourRow :=
  let d := durationMinutes l.start l.finish
  let outs : Option ParsedDT × Option ParsedDT :=
    match l.start, l.finish with
    | some s, some e =>
      let p := shiftAdjust s e
      (some p.1, some p.2)
    | st, fin => (st, fin)
  { itemId := l.itemId, startOut := outs.1, finishOut := outs.2,
    people := l.people, durationMinutes := pyRound d 2,
    manMinutes := pyRound (d * l.people) 2, role := l.role }

/-- The running total `total_man_minutes += man_minutes`
(src/app.py:422,445): sum of the unrounded person-minutes. -/
def totalManMinutes (labour : List LabourLine) : ℚ :=
  (labour.map lineManMinutes).sum

/-- One batch's input values as extracted by the head of `calc_for_batch`
(src/app.py:400-417), after the tolerant scalar coercions. -/
structure BatchInput where
  totalBoxes : ℚ
  ctPerBox : ℚ
  looseCt : ℚ
  totalRaw : ℚ
  rawUnit : String
  unitWeightKg : ℚ
  wastage : ℚ
  wastageUnit : String
  wagePerHour : ℚ
  materialCost : ℚ
  includeExtra : Bool
  extraPct : ℚ
  sellPricePerCt : ℚ
  deriving DecidableEq, Repr

/-- The `calc` dict returned by `calc_for_batch` (src/app.py:474-488).
`calculatedAt` models the wall-clock `datetime.now(timezone.utc)`
stamp. -/
structure CalculationResult where
  totalOutputCT : ℚ
  totalManMinutes : ℚ
  minutesPerCT : ℚ
  wastageRatePct : ℚ
  labourCostPerCT : ℚ
  materialCostPerCT : ℚ
  extraCostPerCT : ℚ
  totalCostPerCT : ℚ
  profitPerCT : ℚ
  profitTotal : ℚ
  rawKg : ℚ
  wastageKg : ℚ
  calculatedAt : ℚ
  deriving DecidableEq, Repr

/-- Embeds `calc_for_batch` (src/app.py:399-490).  `now` is the ambient
wall clock read by `datetime.now` at the end of the call.  All division
guards (`if total_output_ct > 0`, `if raw_kg > 0`) and the
round-at-the-boundary discipline are taken verbatim from the source. -/
def calc_for_batch (b : BatchInput) (labour : List LabourLine) (now : ℚ) :
    CalculationResult × List LabourRow :=
  let total_output_ct := b.totalBoxes * b.ctPerBox + b.looseCt
  let labour_rows := labour.map processLine
  let total_man_minutes := totalManMinutes labour
  let minutes_per_ct :=
    if 0 < total_output_ct then total_man_minutes / total_output_ct else 0
  let raw_kg := convert_to_kg b.totalRaw b.rawUnit b.unitWeightKg
  let wastage_kg := convert_to_kg b.wastage b.wastageUnit b.unitWeightKg
  let wastage_rate_pct := if 0 < raw_kg then wastage_kg / raw_kg * 100 else 0
  let labour_cost_per_ct :=
    if 0 < total_output_ct then minutes_per_ct * (b.wagePerHour / 60) else 0
  let material_cost_per_ct :=
    if 0 < total_output_ct then b.materialCost / total_output_ct else 0
  let base_cost_per_ct := labour_cost_per_ct + material_cost_per_ct
  let extra_cost_per_ct :=
    if b.includeExtra then base_cost_per_ct * (b.extraPct / 100) else 0
  let total_cost_per_ct := base_cost_per_ct + extra_cost_per_ct
  let profit_per_ct := b.sellPricePerCt - total_cost_per_ct
  let profit_total := profit_per_ct * total_output_ct
  ({ totalOutputCT := pyRound total_output_ct 4,
     totalManMinutes := pyRound total_man_minutes 4,
     minutesPerCT := pyRound minutes_per_ct 4,
     wastageRatePct := pyRound wastage_rate_pct 4,
     labourCostPerCT := pyRound labour_cost_per_ct 4,
     materialCostPerCT := pyRound material_cost_per_ct 4,
     extraCostPerCT := pyRound extra_cost_per_ct 4,
     totalCostPerCT := pyRound total_cost_per_ct 4,
     profitPerCT := pyRound profit_per_ct 4,
     profitTotal := pyRound profit_total 4,
     rawKg := pyRound raw_kg 4,
     wastageKg := pyRound wastage_kg 4,
     calculatedAt := now }, labour_rows)

/-- One external column descriptor: `c.get("name")` and
`c.get("displayName")`, with `""` for a missing / falsy value. -/
structure Column where
  name : String
  displayName : String
  deriving DecidableEq, Repr

/-- Embeds `_norm` (src/app.py:152): strip, lowercase, then remove every
character outside `[a-z0-9]`. -/
def normStr (s : String) : String :=
  String.mk (((stripChars s.data).map Char.toLower).filter
    (fun c => ('a' ≤ c ∧ c ≤ 'z') ∨ ('0' ≤ c ∧ c ≤ '9')))

/-- A Python dict built by inserting the pairs in order (a later pair with
the same key overwrites an earlier one), as a lookup function. -/
def buildMap (entries : List (String × String)) : String → Option String :=
  entries.foldl (fun m kv => fun s => if s = kv.1 then some kv.2 else m s)
    (fun _ => none)

/-- Entries of `name_map` (src/app.py:173): `name -> name` for every
column with a truthy `name`. -/
def nameEntries (cols : List Column) : List (String × String) :=
  cols.filterMap (fun c => if c.name ≠ "" then some (c.name, c.name) else none)

/-- Entries of `disp_map` (src/app.py:174): `displayName -> name` for
every column with truthy `displayName` and `name`. -/
def dispEntries (cols : List Column) : List (String × String) :=
  cols.filterMap (fun c =>
    if c.displayName ≠ "" ∧ c.name ≠ "" then some (c.displayName, c.name) else none)

/-- Entries of `norm_name_map` (src/app.py:183-189). -/
def normNameEntries (cols : List Column) : List (String × String) :=
  cols.filterMap (fun c =>
    if c.name ≠ "" then some (normStr c.name, c.name) else none)

/-- Entries of `norm_disp_map` (src/app.py:183-191). -/
def normDispEntries (cols : List Column) : List (String × String) :=
  cols.filterMap (fun c =>
    if c.displayName ≠ "" ∧ c.name ≠ "" then some (normStr c.displayName, c.name) else none)

/-- Embeds `resolve_internal_name` (src/app.py:158-200): candidates are
filtered for truthiness; a first loop over candidates consults the exact
`name` / `displayName` dicts, a second loop the normalized dicts. -/
def resolve_internal_name (cols : List Column) (cands : List String) :
    Option String :=
  if cols.isEmpty then none
  else
    let cand_list := cands.filter (· ≠ "")
    if cand_list.isEmpty then none
    else
      let name_map := buildMap (nameEntries cols)
      let disp_map := buildMap (dispEntries cols)
      match cand_list.findSome? (fun cand =>
          match name_map cand with
          | some r => some r
          | none => disp_map cand) with
      | some r => some r
      | none =>
        let norm_name_map := buildMap (normNameEntries cols)
        let norm_disp_map := buildMap (normDispEntries cols)
        cand_list.findSome? (fun cand =>
          match norm_name_map (normStr cand) with
          | some r => some r
          | none => norm_disp_map (normStr cand))

/-- Direct "last declaration wins" lookup in an ordered entry list; the
reference semantics of a Python dict built by `buildMap`. -/
def lookupLast : List (String × String) → String → Option String
  | [], _ => none
  | kv :: rest, k =>
    match lookupLast rest k with
    | some v => some v
    | none => if k = kv.1 then some kv.2 else none

/-- Modelled from the spec (claim C4's reading of §4.5): four candidate
passes in strict priority order, each exhausted across all candidates —
exact internal id, exact display label, normalized internal id,
normalized display label. -/
def resolve_spec_fourpass (cols : List Column) (cands : List String) :
    Option String :=
  let cand_list := cands.filter (· ≠ "")
  match cand_list.findSome? (fun cand => lookupLast (nameEntries cols) cand) with
  | some r => some r
  | none =>
    match cand_list.findSome? (fun cand => lookupLast (dispEntries cols) cand) with
    | some r => some r
    | none =>
      match cand_list.findSome? (fun cand =>
          lookupLast (normNameEntries cols) (normStr cand)) with
      | some r => some r
      | none =>
        cand_list.findSome? (fun cand =>
          lookupLast (normDispEntries cols) (normStr cand))

/-- The amended reading of the resolver: two passes (exact, then
normalized), each exhausted across all candidates; within a pass each
candidate checks internal ids before display labels. -/
def resolve_spec_twopass (cols : List Column) (cands : List String) :
    Option String :=
  let cand_list := cands.filter (· ≠ "")
  match cand_list.findSome? (fun cand =>
      match lookupLast (nameEntries cols) cand with
      | some r => some r
      | none => lookupLast (dispEntries cols) cand) with
  | some r => some r
  | none =>
    cand_list.findSome? (fun cand =>
      match lookupLast (normNameEntries cols) (normStr cand) with
      | some r => some r
      | none => lookupLast (normDispEntries cols) (normStr cand))

/-- One entry of the `desired` mapping of `patch_fields_safe_by_guess`:
`logical_key: (value, [candidate column names...])`.  Python dicts
iterate in insertion order, hence a list. -/
structure Desired (α : Type) where
  logical : String
  val : α
  cands : List String

/-- The resolved internal name actually used for one desired entry:
`resolve_internal_name` filtered through the `if internal:` truthiness
check (src/app.py:212-213). -/
def hitOf (cols : List Column) (d : Desired α) : Option String :=
  match resolve_internal_name cols d.cands with
  | some s => if s = "" then none else some s
  | none => none

/-- `patch[internal] = val` on an insertion-ordered dict: overwrite in
place when the key exists, else append. -/
def upsert (p : List (String × α)) (k : String) (v : α) : List (String × α) :=
  if p.any (fun e => e.1 = k) then
    p.map (fun e => if e.1 = k then (k, v) else e)
  else p ++ [(k, v)]

/-- The resolution loop of `patch_fields_safe_by_guess`
(src/app.py:208-216), accumulating the patch dict and the missing list. -/
def buildPatch (cols : List Column) :
    List (Desired α) → List (String × α) → List String →
    List (String × α) × List String
  | [], p, m => (p, m)
  | d :: rest, p, m =>
    match hitOf cols d with
    | some internal => buildPatch cols rest (upsert p internal d.val) m
    | none => buildPatch cols rest p (m ++ [d.logical])

/-- Embeds `patch_fields_safe_by_guess` (src/app.py:203-222).  The first
component is the call's outcome (`.error` for the raised exception,
`.ok (patched keys, missing)` for the returned dict); the second is the
trace of `graph_patch_item_fields` PATCH requests issued. -/
def patch_fields_safe_by_guess (cols : List Column) (desired : List (Desired α)) :
    Except String (List String × List String) × List (List (String × α)) :=
  let r := buildPatch cols desired [] []
  if r.1.isEmpty then
    (.error "No fields resolved for PATCH (all missing).", [])
  else
    (.ok (r.1.map (fun e => e.1), r.2), [r.1])

/-! ### Helper lemmas -/

theorem rndHalfEven_intCast (n : ℤ) : rndHalfEven (n : ℚ) = n := by
  unfold rndHalfEven
  rw [Int.floor_intCast]
  norm_num

theorem pyRound_zero (p : ℕ) : pyRound 0 p = 0 := by
  unfold pyRound
  rw [zero_mul, show ((0 : ℚ) = ((0 : ℤ) : ℚ)) from rfl, rndHalfEven_intCast]
  norm_num

theorem pyRound_int_div (n : ℤ) (p : ℕ) :
    pyRound ((n : ℚ) / 10 ^ p) p = (n : ℚ) / 10 ^ p := by
  unfold pyRound
  rw [div_mul_cancel₀ _ (by positivity : ((10 : ℚ) ^ p) ≠ 0), rndHalfEven_intCast]

theorem absSecs_assign (x : ParsedDT) :
    absSecs (if x.tz.isNone then ⟨x.secs, some 0⟩ else x) = absSecs x := by
  cases h : x.tz <;> simp [absSecs, h]

theorem absSecs_addDay (x : ParsedDT) :
    absSecs ⟨x.secs + 86400, x.tz⟩ = absSecs x + 86400 := by
  cases h : x.tz with
  | none => simp [absSecs, h]
  | some o => simp [absSecs, h]; ring

theorem durationMinutes_some_some (s e : ParsedDT) :
    durationMinutes (some s) (some e)
      = (if ((if absSecs e < absSecs s then absSecs e + 86400 else absSecs e)
              - absSecs s) / 60 < 0 then 0
         else ((if absSecs e < absSecs s then absSecs e + 86400 else absSecs e)
              - absSecs s) / 60) := by
  simp only [durationMinutes, shiftAdjust]
  by_cases hlt : absSecs e < absSecs s
  · simp only [absSecs_assign s, absSecs_assign e, if_pos hlt, absSecs_addDay]
  · simp only [absSecs_assign s, absSecs_assign e, if_neg hlt]

theorem findSome?_const_none {σ β : Type} (l : List σ) :
    l.findSome? (fun _ => (none : Option β)) = none := by
  induction l with
  | nil => rfl
  | cons a t ih => simp [List.findSome?_cons, ih]

theorem buildMap_go (es : List (String × String)) (m : String → Option String)
    (k : String) :
    es.foldl (fun m kv => fun s => if s = kv.1 then some kv.2 else m s) m k
      = match lookupLast es k with
        | some v => some v
        | none => m k := by
  induction es generalizing m with
  | nil => simp [lookupLast]
  | cons kv rest ih =>
    simp only [List.foldl_cons, lookupLast]
    rw [ih]
    cases h : lookupLast rest k with
    | some v => simp
    | none =>
      by_cases hk : k = kv.1 <;> simp [hk]

theorem buildMap_eq_lookupLast (es : List (String × String)) (k : String) :
    buildMap es k = lookupLast es k := by
  unfold buildMap
  rw [buildMap_go]
  cases h : lookupLast es k <;> simp

theorem upsert_ne_nil {α : Type} (p : List (String × α)) (k : String) (v : α) :
    upsert p k v ≠ [] := by
  unfold upsert
  split
  · intro h
    rcases List.map_eq_nil_iff.mp h with rfl
    simp_all
  · simp

theorem upsert_mem {α : Type} {p : List (String × α)} {k : String} {v : α}
    {e : String × α} (h : e ∈ upsert p k v) : e ∈ p ∨ e = (k, v) := by
  unfold upsert at h
  split at h
  · rcases List.mem_map.mp h with ⟨e', he', heq⟩
    by_cases hk : e'.1 = k
    · right; rw [if_pos hk] at heq; exact heq.symm
    · left; rw [if_neg hk] at heq; exact heq ▸ he'
  · rcases List.mem_append.mp h with h' | h'
    · left; exact h'
    · right; simpa using h'

theorem buildPatch_missing_mono {α : Type} {cols : List Column}
    {ds : List (Desired α)} {p : List (String × α)} {m : List String} {x : String}
    (h : x ∈ m) : x ∈ (buildPatch cols ds p m).2 := by
  induction ds generalizing p m with
  | nil => simpa [buildPatch] using h
  | cons d rest ih =>
    rw [buildPatch]
    cases hd : hitOf cols d with
    | some internal => exact ih h
    | none => exact ih (List.mem_append_left _ h)

theorem buildPatch_unresolved_mem {α : Type} {cols : List Column}
    {ds : List (Desired α)} {p : List (String × α)} {m : List String}
    {d : Desired α} (hd : d ∈ ds) (hn : hitOf cols d = none) :
    d.logical ∈ (buildPatch cols ds p m).2 := by
  induction ds generalizing p m with
  | nil => cases hd
  | cons d0 rest ih =>
    rw [buildPatch]
    rcases List.mem_cons.mp hd with rfl | hmem
    · rw [hn]
      exact buildPatch_missing_mono (List.mem_append_right _ (List.mem_singleton.mpr rfl))
    · cases hd0 : hitOf cols d0 with
      | some internal => exact ih hmem
      | none => exact ih hmem

theorem buildPatch_all_none {α : Type} {cols : List Column}
    {ds : List (Desired α)} {p : List (String × α)} {m : List String}
    (h : ∀ d ∈ ds, hitOf cols d = none) : (buildPatch cols ds p m).1 = p := by
  induction ds generalizing p m with
  | nil => rfl
  | cons d rest ih =>
    rw [buildPatch, h d (List.mem_cons_self d rest)]
    exact ih (fun d' hd' => h d' (List.mem_cons_of_mem _ hd'))

theorem buildPatch_fst_ne_nil {α : Type} {cols : List Column}
    {ds : List (Desired α)} {p : List (String × α)} {m : List String}
    (h : p ≠ []) : (buildPatch cols ds p m).1 ≠ [] := by
  induction ds generalizing p m with
  | nil => simpa [buildPatch] using h
  | cons d rest ih =>
    rw [buildPatch]
    cases hd : hitOf cols d with
    | some internal => exact ih (upsert_ne_nil _ _ _)
    | none => exact ih h

theorem buildPatch_fst_ne_nil_of_hit {α : Type} {cols : List Column}
    {ds : List (Desired α)} {p : List (String × α)} {m : List String}
    (h : ∃ d ∈ ds, hitOf cols d ≠ none) : (buildPatch cols ds p m).1 ≠ [] := by
  induction ds generalizing p m with
  | nil => rcases h with ⟨d, hd, _⟩; cases hd
  | cons d0 rest ih =>
    rw [buildPatch]
    cases hd0 : hitOf cols d0 with
    | some internal => exact buildPatch_fst_ne_nil (upsert_ne_nil _ _ _)
    | none =>
      rcases h with ⟨d, hd, hne⟩
      rcases List.mem_cons.mp hd with rfl | hmem
      · exact absurd hd0 hne
      · exact ih ⟨d, hmem, hne⟩

theorem buildPatch_fst_from {α : Type} {cols : List Column}
    {ds : List (Desired α)} {p : List (String × α)} {m : List String}
    {e : String × α} (h : e ∈ (buildPatch cols ds p m).1) :
    e ∈ p ∨ ∃ d ∈ ds, hitOf cols d = some e.1 ∧ e.2 = d.val := by
  induction ds generalizing p m with
  | nil => left; simpa [buildPatch] using h
  | cons d0 rest ih =>
    rw [buildPatch] at h
    cases hd0 : hitOf cols d0 with
    | some internal =>
      rw [hd0] at h
      rcases ih h with h' | ⟨d, hd, hh⟩
      · rcases upsert_mem h' with h'' | h''
        · left; exact h''
        · right
          refine ⟨d0, List.mem_cons_self _ _, ?_, ?_⟩
          · rw [hd0, h'']
          · rw [h'']
      · right; exact ⟨d, List.mem_cons_of_mem _ hd, hh⟩
    | none =>
      rw [hd0] at h
      rcases ih h with h' | ⟨d, hd, hh⟩
      · left; exact h'
      · right; exact ⟨d, List.mem_cons_of_mem _ hd, hh⟩

/-! ### Claim theorems -/

/-- Claim C4 (counterexample): on the catalog
`[{name:"A", displayLabel:"X"}, {name:"B", displayLabel:"Y"}]` with
candidates `["X", "B"]`, the code resolves to `"A"` through the first
candidate's exact display-label match, while the claimed four-pass
priority order (exact internal ids exhausted across all candidates
first) would resolve to `"B"`. -/
theorem resolve_fourpass_counterexample :
    resolve_internal_name [⟨"A", "X"⟩, ⟨"B", "Y"⟩] ["X", "B"] = some "A" ∧
    resolve_spec_fourpass [⟨"A", "X"⟩, ⟨"B", "Y"⟩] ["X", "B"] = some "B" ∧
    (some "A" : Option String) ≠ some "B" := by decide

/-- Claim C4 (amended): `resolve_internal_name` applies two passes in
strict priority order — exact, then normalized — each exhausted across
all candidates before the next is tried; within a pass each candidate
checks internal identifiers before display labels, and dict lookups obey
last-declaration-wins semantics (`lookupLast`). -/
theorem resolve_twopass_equiv (cols : List Column) (cands : List String) :
    resolve_internal_name cols cands = resolve_spec_twopass cols cands := by
  unfold resolve_internal_name resolve_spec_twopass
  cases hc : cols.isEmpty with
  | true =>
    have hnil : cols = [] := by
      cases cols with
      | nil => rfl
      | cons a t => simp [List.isEmpty] at hc
    subst hnil
    simp [nameEntries, dispEntries, normNameEntries, normDispEntries,
      lookupLast, findSome?_const_none]
  | false =>
    cases hl : (cands.filter (fun c => c ≠ "")).isEmpty with
    | true =>
      have hnil : cands.filter (fun c => c ≠ "") = [] := by
        cases h : cands.filter (fun c => c ≠ "") with
        | nil => rfl
        | cons a t => rw [h] at hl; simp [List.isEmpty] at hl
      simp only [hnil]
      simp [hc]
    | false =>
      simp only [hc, hl, Bool.false_eq_true, if_false, buildMap_eq_lookupLast]

/-- Claim C5: unresolved logical keys are recorded in the missing list
and contribute nothing to the patch; if some key resolves the call
succeeds (partial success), and if none resolves the call raises. -/
theorem patch_resolution_outcomes {α : Type} (cols : List Column)
    (desired : List (Desired α)) :
    ((∀ d ∈ desired, hitOf cols d = none) →
      (patch_fields_safe_by_guess cols desired).1
        = .error "No fields resolved for PATCH (all missing).") ∧
    ((∃ d ∈ desired, hitOf cols d ≠ none) →
      ∃ keys missing,
        (patch_fields_safe_by_guess cols desired).1 = .ok (keys, missing)) ∧
    (∀ keys missing,
      (patch_fields_safe_by_guess cols desired).1 = .ok (keys, missing) →
      (∀ d ∈ desired, hitOf cols d = none → d.logical ∈ missing) ∧
      (∀ k ∈ keys, ∃ d ∈ desired, hitOf cols d = some k)) := by
  refine ⟨?_, ?_, ?_⟩
  · intro h
    have h1 : (buildPatch cols desired ([] : List (String × α)) []).1 = [] :=
      buildPatch_all_none h
    simp [patch_fields_safe_by_guess, h1]
  · intro h
    have h1 : (buildPatch cols desired ([] : List (String × α)) []).1 ≠ [] :=
      buildPatch_fst_ne_nil_of_hit h
    have hE : (buildPatch cols desired ([] : List (String × α)) []).1.isEmpty = false := by
      cases hp : (buildPatch cols desired ([] : List (String × α)) []).1 with
      | nil => exact absurd hp h1
      | cons a t => simp [List.isEmpty]
    refine ⟨(buildPatch cols desired ([] : List (String × α)) []).1.map (fun e => e.1),
      (buildPatch cols desired ([] : List (String × α)) []).2, ?_⟩
    simp [patch_fields_safe_by_guess, hE]
  · intro keys missing hok
    cases hE : (buildPatch cols desired ([] : List (String × α)) []).1.isEmpty with
    | true => simp [patch_fields_safe_by_guess, hE] at hok
    | false =>
      simp [patch_fields_safe_by_guess, hE] at hok
      obtain ⟨hkeys, hmiss⟩ := hok
      constructor
      · intro d hd hn
        rw [← hmiss]
        exact buildPatch_unresolved_mem hd hn
      · intro k hk
        rw [← hkeys] at hk
        rcases List.mem_map.mp hk with ⟨e, he, rfl⟩
        rcases buildPatch_fst_from he with h' | ⟨d, hd, hh⟩
        · cases h'
        · exact ⟨d, hd, hh.1⟩

/-- Claim C5 (witness): with catalog `[{name:"F"}]`, a desired map whose
only key has no matching candidate makes the call raise; with a resolving
key `"good"` alongside the unresolved `"bad"`, `"bad"` lands in the
missing list and every patched key comes from a resolved entry. -/
theorem patch_resolution_outcomes_witness :
    (patch_fields_safe_by_guess [Column.mk "F" "G"]
        [⟨"bad", (2 : ℕ), ["nope"]⟩]).1
      = .error "No fields resolved for PATCH (all missing)." ∧
    "bad" ∈ (["bad"] : List String) ∧
    (∃ d ∈ ([⟨"good", (1 : ℕ), ["F"]⟩, ⟨"bad", (2 : ℕ), ["nope"]⟩] :
        List (Desired ℕ)), hitOf [Column.mk "F" "G"] d = some "F") := by
  refine ⟨?_, ?_, ?_⟩
  · exact (patch_resolution_outcomes [Column.mk "F" "G"]
      [⟨"bad", (2 : ℕ), ["nope"]⟩]).1 (by decide)
  · exact ((patch_resolution_outcomes [Column.mk "F" "G"]
      [⟨"good", (1 : ℕ), ["F"]⟩, ⟨"bad", (2 : ℕ), ["nope"]⟩]).2.2
      ["F"] ["bad"] rfl).1 ⟨"bad", (2 : ℕ), ["nope"]⟩ (by simp) (by decide)
  · exact ((patch_resolution_outcomes [Column.mk "F" "G"]
      [⟨"good", (1 : ℕ), ["F"]⟩, ⟨"bad", (2 : ℕ), ["nope"]⟩]).2.2
      ["F"] ["bad"] rfl).2 "F" (by simp)

/-- Claim C10: on total resolution failure the call raises and the PATCH
request trace is empty (the external record is untouched); any issued
request is non-empty and carries only resolved internal identifiers with
the corresponding desired values. -/
theorem patch_write_atomic {α : Type} (cols : List Column)
    (desired : List (Desired α)) :
    (∀ msg, (patch_fields_safe_by_guess cols desired).1 = .error msg →
      (patch_fields_safe_by_guess cols desired).2 = []) ∧
    (∀ req ∈ (patch_fields_safe_by_guess cols desired).2,
      req ≠ [] ∧
      ∀ kv ∈ req, ∃ d ∈ desired, hitOf cols d = some kv.1 ∧ kv.2 = d.val) := by
  cases hE : (buildPatch cols desired ([] : List (String × α)) []).1.isEmpty with
  | true =>
    constructor
    · intro msg _
      simp [patch_fields_safe_by_guess, hE]
    · intro req hreq
      simp [patch_fields_safe_by_guess, hE] at hreq
  | false =>
    constructor
    · intro msg hmsg
      simp [patch_fields_safe_by_guess, hE] at hmsg
    · intro req hreq
      simp [patch_fields_safe_by_guess, hE] at hreq
      subst hreq
      constructor
      · intro h
        rw [h] at hE
        simp [List.isEmpty] at hE
      · intro kv hkv
        rcases buildPatch_fst_from hkv with h' | hgood
        · cases h'
        · exact hgood

/-- Claim C10 (witness): a totally-failing desired map issues no PATCH
request, and the single request of a resolving map is the non-empty patch
`[("F", 1)]` whose key comes from the resolved entry `"good"`. -/
theorem patch_write_atomic_witness :
    (patch_fields_safe_by_guess [Column.mk "F" "G"]
        [⟨"nope", (3 : ℕ), ["zzz"]⟩]).2 = [] ∧
    ([("F", (1 : ℕ))] ≠ ([] : List (String × ℕ)) ∧
      ∀ kv ∈ [("F", (1 : ℕ))],
        ∃ d ∈ ([⟨"good", (1 : ℕ), ["F"]⟩] : List (Desired ℕ)),
          hitOf [Column.mk "F" "G"] d = some kv.1 ∧ kv.2 = d.val) := by
  constructor
  · exact (patch_write_atomic [Column.mk "F" "G"]
      [⟨"nope", (3 : ℕ), ["zzz"]⟩]).1
      "No fields resolved for PATCH (all missing)." rfl
  · exact (patch_write_atomic [Column.mk "F" "G"]
      [⟨"good", (1 : ℕ), ["F"]⟩]).2 [("F", (1 : ℕ))] (by decide)

/-- Claim C9: the unit converter is the identity on `kg`, multiplies by
the unit weight for `box`/`carton`, passes `pack` through when the unit
weight is `0` and multiplies when it is positive, and leaves the quantity
unchanged for any label that normalizes outside the recognized set. -/
theorem convert_unit_props (q w : ℚ) (u : String) :
    convert_to_kg q "kg" w = q ∧
    convert_to_kg q "box" w = q * w ∧
    convert_to_kg q "carton" w = q * w ∧
    convert_to_kg q "pack" 0 = q ∧
    (0 < w → convert_to_kg q "pack" w = q * w) ∧
    (normalize_unit u ∉ recognizedUnits → convert_to_kg q u w = q) := by
  have hkg : normalize_unit "kg" = "kg" := by decide
  have hbox : normalize_unit "box" = "box" := by decide
  have hcarton : normalize_unit "carton" = "carton" := by decide
  have hpack : normalize_unit "pack" = "pack" := by decide
  refine ⟨?_, ?_, ?_, ?_, ?_, ?_⟩
  · simp [convert_to_kg, hkg]
  · simp [convert_to_kg, hbox]
  · simp [convert_to_kg, hcarton]
  · simp [convert_to_kg, hpack]
  · intro hw
    simp [convert_to_kg, hpack, hw]
  · intro h
    simp only [recognizedUnits, List.mem_cons, List.not_mem_nil, or_false] at h
    push_neg at h
    obtain ⟨h1, h2, h3, h4, h5, h6, h7, h8, h9, h10, h11, h12, h13, h14, h15,
      h16, h17, h18, h19⟩ := h
    simp [convert_to_kg, h1, h2, h3, h4, h5, h6, h7, h8, h9, h10, h11, h12,
      h13, h14, h15, h16, h17, h18, h19]

/-- Claim C9 (witness): concrete instances — `kg` identity at 3, `pack`
with positive weight 2 multiplies, and the unrecognized label `"stone"`
passes through. -/
theorem convert_unit_props_witness :
    convert_to_kg 3 "kg" 2 = 3 ∧ convert_to_kg 3 "pack" 2 = 3 * 2 ∧
    convert_to_kg 3 "stone" 2 = 3 := by
  refine ⟨(convert_unit_props 3 2 "stone").1, ?_, ?_⟩
  · exact (convert_unit_props 3 2 "stone").2.2.2.2.1 (by norm_num)
  · exact (convert_unit_props 3 2 "stone").2.2.2.2.2 (by decide)

/-- Claim C8: labour durations are never negative; naive timestamps
behave exactly as the same wall clock with an explicit UTC offset; when
the (absolute) end precedes the start, 24 hours are added before the
clamped division by 60; otherwise the duration is the plain span in
minutes; the 22:00Z → 02:00Z overnight wrap yields 240 minutes. -/
theorem duration_overnight_clamp (st fin : Option ParsedDT) (a b : ℚ)
    (s e : ParsedDT) :
    0 ≤ durationMinutes st fin ∧
    durationMinutes (some ⟨a, none⟩) (some ⟨b, none⟩)
      = durationMinutes (some ⟨a, some 0⟩) (some ⟨b, some 0⟩) ∧
    (absSecs e < absSecs s →
      durationMinutes (some s) (some e)
        = if (absSecs e + 86400 - absSecs s) / 60 < 0 then 0
          else (absSecs e + 86400 - absSecs s) / 60) ∧
    (¬ absSecs e < absSecs s →
      durationMinutes (some s) (some e) = (absSecs e - absSecs s) / 60) ∧
    durationMinutes (some ⟨79200, some 0⟩) (some ⟨7200, some 0⟩) = 240 := by
  refine ⟨?_, ?_, ?_, ?_, ?_⟩
  · cases st with
    | none => simp [durationMinutes]
    | some s' =>
      cases fin with
      | none => simp [durationMinutes]
      | some e' =>
        rw [durationMinutes_some_some]
        split
        · split
          · exact le_refl _
          · next hne => exact le_of_not_lt hne
        · split
          · exact le_refl _
          · next hne => exact le_of_not_lt hne
  · simp [durationMinutes, shiftAdjust, absSecs]
  · intro hlt
    rw [durationMinutes_some_some, if_pos hlt]
  · intro hge
    rw [durationMinutes_some_some, if_neg hge]
    have h0 : 0 ≤ (absSecs e - absSecs s) / 60 :=
      div_nonneg (by linarith [not_lt.mp hge]) (by norm_num)
    rw [if_neg (not_lt.mpr h0)]
  · norm_num [durationMinutes, shiftAdjust, absSecs]

/-- Claim C8 (witness): the overnight pair 22:00Z/02:00Z takes the
add-24-hours branch, and an ordinary 08:00Z/10:00Z pair takes the plain
span branch. -/
theorem duration_overnight_clamp_witness :
    durationMinutes (some ⟨79200, some 0⟩) (some ⟨7200, some 0⟩)
      = (if (absSecs ⟨7200, some 0⟩ + 86400 - absSecs ⟨79200, some 0⟩) / 60 < 0
         then 0
         else (absSecs ⟨7200, some 0⟩ + 86400 - absSecs ⟨79200, some 0⟩) / 60) ∧
    durationMinutes (some ⟨28800, some 0⟩) (some ⟨36000, some 0⟩)
      = (absSecs ⟨36000, some 0⟩ - absSecs ⟨28800, some 0⟩) / 60 := by
  constructor
  · exact (duration_overnight_clamp none none 0 0 ⟨79200, some 0⟩
      ⟨7200, some 0⟩).2.2.1 (by norm_num [absSecs])
  · exact (duration_overnight_clamp none none 0 0 ⟨28800, some 0⟩
      ⟨36000, some 0⟩).2.2.2.1 (by norm_num [absSecs])

/-- Claim C7 (counterexample): a labour line with headcount `-1` and a
60-minute span contributes `-60` person-minutes — not `0` — to the batch
aggregate, refuting the claim for negative headcounts. -/
theorem negative_headcount_counterexample :
    (⟨some ⟨28800, some 0⟩, some ⟨32400, some 0⟩, -1, "", ""⟩ :
      LabourLine).people ≤ 0 ∧
    lineManMinutes ⟨some ⟨28800, some 0⟩, some ⟨32400, some 0⟩, -1, "", ""⟩
      = -60 ∧
    (calc_for_batch ⟨0, 0, 0, 0, "kg", 0, 0, "kg", 0, 0, false, 0, 0⟩
      [⟨some ⟨28800, some 0⟩, some ⟨32400, some 0⟩, -1, "", ""⟩]
      0).1.totalManMinutes = -60 ∧
    ((-60 : ℚ) ≠ 0) := by
  refine ⟨by norm_num, ?_, ?_, by norm_num⟩
  · norm_num [lineManMinutes, durationMinutes, shiftAdjust, absSecs]
  · simp only [calc_for_batch, totalManMinutes, lineManMinutes,
      durationMinutes, shiftAdjust, absSecs, List.map_cons, List.map_nil,
      List.sum_cons, List.sum_nil]
    norm_num [pyRound, rndHalfEven]

/-- Claim C7 (amended): person-minutes are always duration × headcount;
a line with headcount exactly `0` contributes `0` person-minutes to the
aggregate while still being processed (its row is kept, its duration
still computed); a negative headcount instead contributes its negative
product. -/
theorem manMinutes_headcount (b : BatchInput) (l : LabourLine)
    (ls : List LabourLine) (now : ℚ) :
    lineManMinutes l = durationMinutes l.start l.finish * l.people ∧
    (l.people = 0 → totalManMinutes (l :: ls) = totalManMinutes ls) ∧
    (calc_for_batch b (l :: ls) now).2.length = ls.length + 1 ∧
    (calc_for_batch b (l :: ls) now).2.head? = some (processLine l) ∧
    (processLine l).durationMinutes
      = pyRound (durationMinutes l.start l.finish) 2 := by
  refine ⟨rfl, ?_, ?_, rfl, rfl⟩
  · intro h
    simp [totalManMinutes, lineManMinutes, h]
  · simp [calc_for_batch]

/-- Claim C7 (amended, witness): a zero-headcount line over a one-hour
span adds nothing to the aggregate yet its row is still produced. -/
theorem manMinutes_headcount_witness :
    totalManMinutes
        [(⟨some ⟨28800, some 0⟩, some ⟨32400, some 0⟩, 0, "", ""⟩ : LabourLine)]
      = totalManMinutes [] ∧
    (calc_for_batch ⟨0, 0, 0, 0, "kg", 0, 0, "kg", 0, 0, false, 0, 0⟩
      [⟨some ⟨28800, some 0⟩, some ⟨32400, some 0⟩, 0, "", ""⟩]
      0).2.length = 0 + 1 := by
  constructor
  · exact (manMinutes_headcount ⟨0, 0, 0, 0, "kg", 0, 0, "kg", 0, 0, false, 0, 0⟩
      ⟨some ⟨28800, some 0⟩, some ⟨32400, some 0⟩, 0, "", ""⟩ [] 0).2.1 rfl
  · exact (manMinutes_headcount ⟨0, 0, 0, 0, "kg", 0, 0, "kg", 0, 0, false, 0, 0⟩
      ⟨some ⟨28800, some 0⟩, some ⟨32400, some 0⟩, 0, "", ""⟩ [] 0).2.2.1

/-- Claim C6: `calc_for_batch` is a pure function of the batch fields,
the labour lines and the clock; every result field of the spec's
CalculationResult (everything except the wall-clock `calculatedAt`
stamp) and the labour rows are identical across two invocations at
different times on identical inputs. -/
theorem calc_time_independent (b : BatchInput) (ls : List LabourLine)
    (n₁ n₂ : ℚ) :
    (calc_for_batch b ls n₁).1.totalOutputCT
      = (calc_for_batch b ls n₂).1.totalOutputCT ∧
    (calc_for_batch b ls n₁).1.totalManMinutes
      = (calc_for_batch b ls n₂).1.totalManMinutes ∧
    (calc_for_batch b ls n₁).1.minutesPerCT
      = (calc_for_batch b ls n₂).1.minutesPerCT ∧
    (calc_for_batch b ls n₁).1.wastageRatePct
      = (calc_for_batch b ls n₂).1.wastageRatePct ∧
    (calc_for_batch b ls n₁).1.labourCostPerCT
      = (calc_for_batch b ls n₂).1.labourCostPerCT ∧
    (calc_for_batch b ls n₁).1.materialCostPerCT
      = (calc_for_batch b ls n₂).1.materialCostPerCT ∧
    (calc_for_batch b ls n₁).1.extraCostPerCT
      = (calc_for_batch b ls n₂).1.extraCostPerCT ∧
    (calc_for_batch b ls n₁).1.totalCostPerCT
      = (calc_for_batch b ls n₂).1.totalCostPerCT ∧
    (calc_for_batch b ls n₁).1.profitPerCT
      = (calc_for_batch b ls n₂).1.profitPerCT ∧
    (calc_for_batch b ls n₁).1.profitTotal
      = (calc_for_batch b ls n₂).1.profitTotal ∧
    (calc_for_batch b ls n₁).1.rawKg = (calc_for_batch b ls n₂).1.rawKg ∧
    (calc_for_batch b ls n₁).1.wastageKg
      = (calc_for_batch b ls n₂).1.wastageKg ∧
    (calc_for_batch b ls n₁).2 = (calc_for_batch b ls n₂).2 :=
  ⟨rfl, rfl, rfl, rfl, rfl, rfl, rfl, rfl, rfl, rfl, rfl, rfl, rfl⟩

/-- Claim C2: when the total output quantity is non-positive the
minutes-per-unit, labour-cost and material-cost fields are all `0` (the
divisions are guarded), and when the normalized raw mass is non-positive
the wastage rate is `0`. -/
theorem calc_zero_output_guards (b : BatchInput) (ls : List LabourLine)
    (now : ℚ) :
    (b.totalBoxes * b.ctPerBox + b.looseCt ≤ 0 →
      (calc_for_batch b ls now).1.minutesPerCT = 0 ∧
      (calc_for_batch b ls now).1.labourCostPerCT = 0 ∧
      (calc_for_batch b ls now).1.materialCostPerCT = 0) ∧
    (convert_to_kg b.totalRaw b.rawUnit b.unitWeightKg ≤ 0 →
      (calc_for_batch b ls now).1.wastageRatePct = 0) := by
  constructor
  · intro h
    have hnot : ¬ 0 < b.totalBoxes * b.ctPerBox + b.looseCt := not_lt.mpr h
    refine ⟨?_, ?_, ?_⟩ <;> simp [calc_for_batch, hnot, pyRound_zero]
  · intro h
    have hnot : ¬ 0 < convert_to_kg b.totalRaw b.rawUnit b.unitWeightKg :=
      not_lt.mpr h
    simp [calc_for_batch, hnot, pyRound_zero]

/-- Claim C2 (witness): the all-zero batch has total output `0` and raw
mass `0`, and all four guarded fields evaluate to `0`. -/
theorem calc_zero_output_guards_witness :
    (calc_for_batch ⟨0, 0, 0, 0, "kg", 0, 0, "kg", 0, 0, false, 0, 0⟩ []
      0).1.minutesPerCT = 0 ∧
    (calc_for_batch ⟨0, 0, 0, 0, "kg", 0, 0, "kg", 0, 0, false, 0, 0⟩ []
      0).1.labourCostPerCT = 0 ∧
    (calc_for_batch ⟨0, 0, 0, 0, "kg", 0, 0, "kg", 0, 0, false, 0, 0⟩ []
      0).1.materialCostPerCT = 0 ∧
    (calc_for_batch ⟨0, 0, 0, 0, "kg", 0, 0, "kg", 0, 0, false, 0, 0⟩ []
      0).1.wastageRatePct = 0 := by
  have h := calc_zero_output_guards
    ⟨0, 0, 0, 0, "kg", 0, 0, "kg", 0, 0, false, 0, 0⟩ [] 0
  have h1 := h.1 (by norm_num)
  exact ⟨h1.1, h1.2.1, h1.2.2, h.2 (by decide)⟩

/-- Claim C3 (counterexample): with `boxCount = 3/25000`,
`countPerBox = 1`, `looseCount = 0`, the stored `TotalOutputCT` is the
4-decimal rounding `1/10000`, not the exact `3/25000`. -/
theorem totalOutput_rounding_counterexample :
    (calc_for_batch ⟨3/25000, 1, 0, 0, "kg", 0, 0, "kg", 0, 0, false, 0, 0⟩
      [] 0).1.totalOutputCT = 1/10000 ∧
    ((3 : ℚ)/25000) * 1 + 0 = 3/25000 ∧
    ((1 : ℚ)/10000) ≠ 3/25000 := by
  refine ⟨?_, by norm_num, by norm_num⟩
  simp only [calc_for_batch]
  norm_num [pyRound, rndHalfEven]

/-- Claim C3 (amended): the `TotalOutputCT` field is the 4-decimal
rounding of `boxCount * countPerBox + looseCount`, whatever the labour
lines; it equals the exact value whenever that value has at most four
decimal places (in particular for integer counts). -/
theorem totalOutput_round4 (b : BatchInput) (ls : List LabourLine) (now : ℚ) :
    (calc_for_batch b ls now).1.totalOutputCT
      = pyRound (b.totalBoxes * b.ctPerBox + b.looseCt) 4 ∧
    (∀ n : ℤ, b.totalBoxes * b.ctPerBox + b.looseCt = (n : ℚ) / 10 ^ 4 →
      (calc_for_batch b ls now).1.totalOutputCT
        = b.totalBoxes * b.ctPerBox + b.looseCt) := by
  refine ⟨rfl, ?_⟩
  intro n hn
  show pyRound (b.totalBoxes * b.ctPerBox + b.looseCt) 4 = _
  rw [hn, pyRound_int_div]

/-- Claim C3 (amended, witness): the integer batch `10 × 12 + 0`
round-trips exactly through the boundary rounding. -/
theorem totalOutput_round4_witness :
    (calc_for_batch ⟨10, 12, 0, 0, "kg", 0, 0, "kg", 0, 0, false, 0, 0⟩ []
      0).1.totalOutputCT = (10 : ℚ) * 12 + 0 := by
  have h := (totalOutput_round4
    ⟨10, 12, 0, 0, "kg", 0, 0, "kg", 0, 0, false, 0, 0⟩ [] 0).2
    1200000 (by norm_num)
  simpa using h

/-- Claim C1: the end-to-end scenario — 10 boxes × 12 per box, one
120-minute labour line with 2 people, wage 15/h, material cost 60,
extra 10 %, sell price 2 — produces exactly the spec's figures, the
rounding to 4 decimals being applied only at the output boundary. -/
theorem calc_end_to_end :
    (calc_for_batch ⟨10, 12, 0, 0, "kg", 0, 0, "kg", 15, 60, true, 10, 2⟩
      [⟨some ⟨28800, some 0⟩, some ⟨36000, some 0⟩, 2, "", ""⟩]
      0).1.totalOutputCT = 120 ∧
    (calc_for_batch ⟨10, 12, 0, 0, "kg", 0, 0, "kg", 15, 60, true, 10, 2⟩
      [⟨some ⟨28800, some 0⟩, some ⟨36000, some 0⟩, 2, "", ""⟩]
      0).1.totalManMinutes = 240 ∧
    (calc_for_batch ⟨10, 12, 0, 0, "kg", 0, 0, "kg", 15, 60, true, 10, 2⟩
      [⟨some ⟨28800, some 0⟩, some ⟨36000, some 0⟩, 2, "", ""⟩]
      0).1.minutesPerCT = 2 ∧
    (calc_for_batch ⟨10, 12, 0, 0, "kg", 0, 0, "kg", 15, 60, true, 10, 2⟩
      [⟨some ⟨28800, some 0⟩, some ⟨36000, some 0⟩, 2, "", ""⟩]
      0).1.labourCostPerCT = 1/2 ∧
    (calc_for_batch ⟨10, 12, 0, 0, "kg", 0, 0, "kg", 15, 60, true, 10, 2⟩
      [⟨some ⟨28800, some 0⟩, some ⟨36000, some 0⟩, 2, "", ""⟩]
      0).1.materialCostPerCT = 1/2 ∧
    (calc_for_batch ⟨10, 12, 0, 0, "kg", 0, 0, "kg", 15, 60, true, 10, 2⟩
      [⟨some ⟨28800, some 0⟩, some ⟨36000, some 0⟩, 2, "", ""⟩]
      0).1.extraCostPerCT = 1/10 ∧
    (calc_for_batch ⟨10, 12, 0, 0, "kg", 0, 0, "kg", 15, 60, true, 10, 2⟩
      [⟨some ⟨28800, some 0⟩, some ⟨36000, some 0⟩, 2, "", ""⟩]
      0).1.totalCostPerCT = 11/10 ∧
    (calc_for_batch ⟨10, 12, 0, 0, "kg", 0, 0, "kg", 15, 60, true, 10, 2⟩
      [⟨some ⟨28800, some 0⟩, some ⟨36000, some 0⟩, 2, "", ""⟩]
      0).1.profitPerCT = 9/10 ∧
    (calc_for_batch ⟨10, 12, 0, 0, "kg", 0, 0, "kg", 15, 60, true, 10, 2⟩
      [⟨some ⟨28800, some 0⟩, some ⟨36000, some 0⟩, 2, "", ""⟩]
      0).1.profitTotal = 108 := by
  have h : normalize_unit "kg" = "kg" := by decide
  refine ⟨?_, ?_, ?_, ?_, ?_, ?_, ?_, ?_, ?_⟩ <;>
    · simp only [calc_for_batch, totalManMinutes, lineManMinutes,
        durationMinutes, shiftAdjust, absSecs, List.map_cons, List.map_nil,
        List.sum_cons, List.sum_nil, convert_to_kg, h]
      norm_num [pyRound, rndHalfEven]

